import Mathlib

/-!
Verification of the guardrail pipeline in `main.py` (SkyHigh Airlines chatbot).

Python strings are embedded as `List Char`.  Python's `str.strip()`,
`str.lower()`, `str.upper()` and the `in` substring operator are embedded as
`pyStrip`, `pyLower`, `pyUpper` and `containsSub`.  Case mapping is modelled on
the ASCII range (every keyword and the verdict marker are ASCII or Thai, and
Thai has no case), and `pyStrip` strips the ASCII whitespace characters.

The asynchronous parts (classifier backend, generation backend, cooperative
scheduling of background tasks) are embedded as explicit environment
parameters: a `ClassifierResult` is the outcome of one classifier call, the
generation backend is a list of chunks plus a flag saying whether it raises
after producing them, and the value of the per-request `is_safe_event` as
observed at the top of each streaming iteration is a trace `Nat → Bool`.
-/

namespace SkyHigh

/-- Python strings are embedded as lists of characters. -/
abbrev Str := List Char

/-- ASCII whitespace, the `str.strip` character class restricted to ASCII. -/
def pyIsSpace (c : Char) : Bool :=
  c = ' ' || c = '\t' || c = '\n' || c = '\r' || c = '\x0b' || c = '\x0c'

/-- ASCII uppercase/lowercase letter pairs. -/
def CASE_PAIRS : List (Char × Char) :=
  [('A', 'a'), ('B', 'b'), ('C', 'c'), ('D', 'd'), ('E', 'e'), ('F', 'f'),
   ('G', 'g'), ('H', 'h'), ('I', 'i'), ('J', 'j'), ('K', 'k'), ('L', 'l'),
   ('M', 'm'), ('N', 'n'), ('O', 'o'), ('P', 'p'), ('Q', 'q'), ('R', 'r'),
   ('S', 's'), ('T', 't'), ('U', 'u'), ('V', 'v'), ('W', 'w'), ('X', 'x'),
   ('Y', 'y'), ('Z', 'z')]

/-- ASCII case folding for `str.lower`, identity outside A–Z. -/
def pyToLower (c : Char) : Char :=
  match CASE_PAIRS.find? (fun p => p.1 == c) with
  | some p => p.2
  | none => c

/-- ASCII case folding for `str.upper`, identity outside a–z. -/
def pyToUpper (c : Char) : Char :=
  match CASE_PAIRS.find? (fun p => p.2 == c) with
  | some p => p.1
  | none => c

/-- Embedding of Python `str.lower`. -/
def pyLower (s : Str) : Str := s.map pyToLower

/-- Embedding of Python `str.upper`. -/
def pyUpper (s : Str) : Str := s.map pyToUpper

/-- Embedding of Python `str.strip`: drop whitespace from both ends. -/
def pyStrip (s : Str) : Str :=
  ((s.dropWhile pyIsSpace).reverse.dropWhile pyIsSpace).reverse

/-- Embedding of Python substring containment `pat in s`. -/
def containsSub (s pat : Str) : Bool :=
  match s with
  | [] => pat.isPrefixOf []
  | c :: t => pat.isPrefixOf (c :: t) || containsSub t pat

-- ==========================================
-- Configuration constants from main.py
-- ==========================================

/-- Source constant `MAX_PROMPT_LENGTH = 1000`. -/
def MAX_PROMPT_LENGTH : Nat := 1000

/-- Source constant `CHECK_INTERVAL = 40`. -/
def CHECK_INTERVAL : Nat := 40

/-- Source constant `JUDGE_TIMEOUT_SEC = 5.0`, embedded as a rational. -/
def JUDGE_TIMEOUT_SEC : ℚ := 5

/-- The literal `timeout=4.0` of `asyncio.wait_for(initial_check, timeout=4.0)`. -/
def INITIAL_CHECK_WAIT_SEC : ℚ := 4

/-- Source constant `MAX_CONCURRENT_JUDGES = 1`. -/
def MAX_CONCURRENT_JUDGES : Nat := 1

/-- Source list `FORBIDDEN_KEYWORDS`. -/
def FORBIDDEN_KEYWORDS : List Str :=
  [String.toList "airasia",
   String.toList "แอร์เอเชีย",
   String.toList "nok air",
   String.toList "นกแอร์",
   String.toList "lion air",
   String.toList "ไลอ้อนแอร์",
   String.toList "vietjet",
   String.toList "qatar airways",
   String.toList "emirates",
   String.toList "singapore airlines",
   String.toList "การบินไทย"]

/-- The verdict marker scanned for in the classifier response. -/
def VERDICT_MARKER : Str := String.toList "UNSAFE"

/-- Fixed L1 rejection message yielded by `reject_l1`. -/
def L1_MSG : Str :=
  String.toList "\n\nขออภัยครับ ทาง SkyHigh Airlines ให้ข้อมูลเฉพาะบริการของเราเท่านั้น"

/-- Fixed L2 rejection message yielded by `reject_l2`. -/
def L2_MSG : Str :=
  String.toList "\n\nขออภัยครับ เนื้อหานี้ไม่สอดคล้องกับนโยบายของเรา"

/-- Fixed L3 abort message yielded when the stream is terminated. -/
def L3_MSG : Str :=
  String.toList "\n\nขออภัยครับ การสนทนาไม่เป็นไปตามนโยบาย"

/-- Fixed temporary-failure message yielded on a generation-backend error. -/
def TEMP_FAIL_MSG : Str :=
  String.toList "\n\nขออภัยครับ ระบบมีปัญหาชั่วคราว"

-- ==========================================
-- Judge (run_guardrail_judge)
-- ==========================================

/-- Outcome of one external classifier call: a raw free-text response, a
timeout of the `asyncio.timeout(JUDGE_TIMEOUT_SEC)` block, or any other
raised exception. -/
inductive ClassifierResult where
  | resp (s : Str)
  | timeout
  | failure
deriving DecidableEq

/-- Result of one `run_guardrail_judge` call: the value of the per-request
`is_safe_event` after the call, and whether the external classifier was
invoked by the call. -/
structure JudgeOutcome where
  signal : Bool
  invoked : Bool
deriving DecidableEq

/-- Embedding of `run_guardrail_judge`.  `locked` is the value of
`judge_semaphore.locked()` at entry; `signal` is the value of
`is_safe_event` at entry; `cl` is the outcome of the classifier call that
would be made.  The source returns immediately when the stripped text is
empty or the semaphore is held; it clears the event exactly when the
stripped upper-cased response contains `UNSAFE`; it swallows timeouts and
all other exceptions, leaving the event untouched. -/
def run_guardrail_judge (text : Str) (locked : Bool) (signal : Bool)
    (cl : ClassifierResult) : JudgeOutcome :=
  if pyStrip text = [] || locked then ⟨signal, false⟩
  else
    match cl with
    | .resp s =>
        if containsSub (pyUpper (pyStrip s)) VERDICT_MARKER then ⟨false, true⟩
        else ⟨signal, true⟩
    | .timeout => ⟨signal, true⟩
    | .failure => ⟨signal, true⟩

/-- Fold a sequence of judge invocations over the per-request event value.
During one request the event is mutated by `run_guardrail_judge` calls
only: no other line of the source writes to `is_safe_event` after the
initial `set()`. -/
def runJudges (sig : Bool) : List (Str × Bool × ClassifierResult) → Bool
  | [] => sig
  | (t, l, cl) :: rest => runJudges (run_guardrail_judge t l sig cl).signal rest

-- ==========================================
-- StreamInterceptor (stream_generator)
-- ==========================================

/-- One chunk received from the generation backend.  `some tok` is a chunk
carrying both a `"message"` field and a `"content"` field inside it, with
content `tok`; `none` is any chunk missing one of the two fields. -/
abbrev Chunk := Option Str

/-- Local state of the `stream_generator` loop: the accumulated
`full_text_buffer`, the `last_check_len` counter, the chunks yielded so far,
the texts dispatched so far to background judge checks (in dispatch order),
and whether the loop has broken out with the L3 abort message. -/
structure StreamState where
  buffer : Str
  last_check_len : Nat
  output : List Str
  dispatched : List Str
  aborted : Bool
deriving DecidableEq

/-- Initial state of the streaming loop. -/
def initStreamState : StreamState := ⟨[], 0, [], [], false⟩

/-- Embedding of the `async for` loop body of `stream_generator`.  `sig i`
is the value of `is_safe_event` observed by the abort check at iteration
`i` (the background judge tasks that mutate the event are abstracted into
this trace; by the latch property of `run_guardrail_judge` any realizable
trace is monotone true-then-false).  The loop checks the event before
forwarding, skips chunks missing `"message"`/`"content"`, appends the
token to the buffer, yields it, and dispatches the trailing 140-character
window when at least `CHECK_INTERVAL` new characters accumulated. -/
def streamLoop (sig : Nat → Bool) : Nat → List Chunk → StreamState → StreamState
  | _, [], st => st
  | i, c :: cs, st =>
    if sig i = false then
      { st with output := st.output ++ [L3_MSG], aborted := true }
    else
      match c with
      | none => streamLoop sig (i + 1) cs st
      | some tok =>
        let buf := st.buffer ++ tok
        let st' := { st with buffer := buf, output := st.output ++ [tok] }
        if buf.length - st.last_check_len ≥ CHECK_INTERVAL then
          streamLoop sig (i + 1) cs
            { st' with
                dispatched := st'.dispatched ++ [buf.drop (buf.length - 140)],
                last_check_len := buf.length }
        else
          streamLoop sig (i + 1) cs st'

/-- Background tasks still in the `background_tasks` set at stream exit:
`done i` says whether the done-callback of the `i`-th dispatched task has
already removed it from the set.  The `finally` clause cancels exactly the
tasks still in the set. -/
def pendingAux (done : Nat → Bool) : Nat → List Str → List Str
  | _, [] => []
  | i, d :: ds =>
    if done i then pendingAux done (i + 1) ds
    else d :: pendingAux done (i + 1) ds

/-- Result of one full run of `stream_generator`: the chunks yielded to the
caller in order, the texts dispatched to background checks, the tasks
cancelled by the `finally` clause, and whether the run ended in the L3
abort. -/
structure StreamResult where
  output : List Str
  dispatched : List Str
  cancelled : List Str
  aborted : Bool
deriving DecidableEq

/-- Embedding of `stream_generator`.  `genFails` says whether the
generation backend raises after producing `chunks` (an exception at any
point is modelled by listing the successfully delivered chunks first); on
that path the `except` clause yields the fixed temporary-failure message.
When the loop breaks out on the abort check, iteration stops and no
exception is observed.  The `finally` clause cancels every background task
whose done-callback has not run. -/
def stream_generator (sig : Nat → Bool) (chunks : List Chunk)
    (genFails : Bool) (done : Nat → Bool) : StreamResult :=
  let st := streamLoop sig 0 chunks initStreamState
  let out := if genFails && !st.aborted then st.output ++ [TEMP_FAIL_MSG] else st.output
  ⟨out, st.dispatched, pendingAux done 0 st.dispatched, st.aborted⟩

-- ==========================================
-- GuardrailPipeline (chat_endpoint)
-- ==========================================

/-- Keyword scan of `chat_endpoint`:
`any(kw in prompt.lower() for kw in FORBIDDEN_KEYWORDS)`. -/
def keywordHit (p : Str) : Bool :=
  FORBIDDEN_KEYWORDS.any (fun kw => containsSub (pyLower p) kw)

/-- Environment of one request: everything outside the pipeline's control.
`promptLocked` is whether the judge semaphore is held when the prompt-stage
check runs, `promptClassifier` the outcome of its classifier call,
`waitTimesOut` whether `asyncio.wait_for(initial_check, timeout=4.0)` times
out, `streamSig` the event trace seen by the streaming loop, `genChunks`
and `genFails` the generation backend behaviour, and `taskDone` the
done-callback trace of background tasks. -/
structure HandleEnv where
  promptLocked : Bool
  promptClassifier : ClassifierResult
  waitTimesOut : Bool
  streamSig : Nat → Bool
  genChunks : List Chunk
  genFails : Bool
  taskDone : Nat → Bool

/-- Observable result of `chat_endpoint` when it does not raise: the chunks
of the streamed response in order, whether the classifier backend was
invoked at least once, and whether the generation backend was invoked. -/
structure HandleResult where
  output : List Str
  classifierInvoked : Bool
  generationInvoked : Bool
deriving DecidableEq

/-- Embedding of `chat_endpoint`.  A prompt longer than
`MAX_PROMPT_LENGTH` raises HTTP 413 (`Except.error 413`).  Otherwise the
prompt is stripped, the per-request `is_safe_event` is created set (the
judge is entered with signal `true`), Layer 1 returns the fixed L1 message
on a keyword hit, Layer 2 awaits the prompt-stage judge under the 4.0s
bounded wait and returns the fixed L2 message when the event was cleared,
and otherwise the request is handed to `stream_generator`.  When the
bounded wait times out the task is cancelled and the code proceeds without
consulting the event (which the cancelled task can no longer have
cleared, since the clear and the task's completion are separated by no
suspension point). -/
def chat_endpoint (prompt : Str) (env : HandleEnv) : Except Nat HandleResult :=
  if prompt.length > MAX_PROMPT_LENGTH then .error 413
  else
    let p := pyStrip prompt
    if keywordHit p then .ok ⟨[L1_MSG], false, false⟩
    else
      let j := run_guardrail_judge p env.promptLocked true env.promptClassifier
      if env.waitTimesOut then
        let sr := stream_generator env.streamSig env.genChunks env.genFails env.taskDone
        .ok ⟨sr.output, j.invoked || !sr.dispatched.isEmpty, true⟩
      else if j.signal = false then
        .ok ⟨[L2_MSG], j.invoked, false⟩
      else
        let sr := stream_generator env.streamSig env.genChunks env.genFails env.taskDone
        .ok ⟨sr.output, j.invoked || !sr.dispatched.isEmpty, true⟩

-- ==========================================
-- Process-wide admission control (judge_semaphore)
-- ==========================================

/-- Process-wide semaphore state: `available` is the counter of
`judge_semaphore` (initially `MAX_CONCURRENT_JUDGES`), `inFlight` the
number of classifier calls currently executing. -/
structure ProcState where
  available : Nat
  inFlight : Nat
deriving DecidableEq

/-- Initial process state: `asyncio.Semaphore(MAX_CONCURRENT_JUDGES)`,
no classifier call in flight. -/
def initProc : ProcState := ⟨MAX_CONCURRENT_JUDGES, 0⟩

/-- Scheduler-level events of the judge subsystem: a `run_guardrail_judge`
call reaching the admission check with text `t`, and the completion
(success, timeout or error) of an in-flight classifier call. -/
inductive JudgeEvent where
  | arrive (t : Str)
  | finish

/-- One scheduler step.  The returned flag says whether an arrival was
dropped.  An arrival with empty stripped text, or while
`judge_semaphore.locked()` holds (`available = 0`), returns immediately:
state unchanged, nothing queued, no exception.  (Under cooperative
scheduling there is no suspension point between the `locked()` check and
the `async with` acquisition, so check-and-acquire is atomic.)  Otherwise
the slot is acquired and the classifier call starts; `finish` releases the
slot on every exit path, as guaranteed by `async with`. -/
def procStep (st : ProcState) : JudgeEvent → ProcState × Bool
  | .arrive t =>
    if pyStrip t = [] || st.available = 0 then (st, true)
    else (⟨st.available - 1, st.inFlight + 1⟩, false)
  | .finish =>
    if st.inFlight = 0 then (st, false)
    else (⟨st.available + 1, st.inFlight - 1⟩, false)

/-- Run a sequence of scheduler events. -/
def procRun (st : ProcState) (evs : List JudgeEvent) : ProcState :=
  evs.foldl (fun s e => (procStep s e).1) st

-- ==========================================
-- String lemmas
-- ==========================================

/-- A pattern whose first and last characters are not whitespace, so that
occurrences of it survive stripping. -/
def trimSafe (pat : Str) : Bool :=
  match pat, pat.reverse with
  | c :: _, d :: _ => !pyIsSpace c && !pyIsSpace d
  | _, _ => false

/-- ASCII lower-casing maps whitespace to whitespace and back. -/
theorem pyToLower_space (c : Char) : pyIsSpace (pyToLower c) = pyIsSpace c := by
  unfold pyToLower
  cases hf : CASE_PAIRS.find? (fun p => p.1 == c) with
  | none => rfl
  | some p =>
    have hmem : p ∈ CASE_PAIRS := List.mem_of_find?_eq_some hf
    have hc : p.1 = c := by simpa using List.find?_some hf
    rw [← hc]
    fin_cases hmem <;> rfl

/-- ASCII upper-casing maps whitespace to whitespace and back. -/
theorem pyToUpper_space (c : Char) : pyIsSpace (pyToUpper c) = pyIsSpace c := by
  unfold pyToUpper
  cases hf : CASE_PAIRS.find? (fun p => p.2 == c) with
  | none => rfl
  | some p =>
    have hmem : p ∈ CASE_PAIRS := List.mem_of_find?_eq_some hf
    have hc : p.2 = c := by simpa using List.find?_some hf
    rw [← hc]
    fin_cases hmem <;> rfl

/-- Whitespace-class-preserving character maps commute with `dropWhile`. -/
theorem dropWhile_map_comm (f : Char → Char)
    (hf : ∀ c, pyIsSpace (f c) = pyIsSpace c) (s : Str) :
    (s.map f).dropWhile pyIsSpace = (s.dropWhile pyIsSpace).map f := by
  induction s with
  | nil => rfl
  | cons c t ih =>
    rw [List.map_cons, List.dropWhile_cons, List.dropWhile_cons, hf c]
    cases h : pyIsSpace c
    · simp [h]
    · simp [h, ih]

/-- Whitespace-class-preserving character maps commute with `pyStrip`. -/
theorem pyStrip_map_comm (f : Char → Char)
    (hf : ∀ c, pyIsSpace (f c) = pyIsSpace c) (s : Str) :
    pyStrip (s.map f) = (pyStrip s).map f := by
  unfold pyStrip
  rw [dropWhile_map_comm f hf, ← List.map_reverse, dropWhile_map_comm f hf,
    ← List.map_reverse]

/-- Substring containment agrees with the infix relation on lists. -/
theorem containsSub_iff (s pat : Str) : containsSub s pat = true ↔ pat <:+: s := by
  induction s with
  | nil =>
    simp [containsSub, List.isPrefixOf_iff_prefix]
  | cons c t ih =>
    simp [containsSub, List.isPrefixOf_iff_prefix, ih, List.infix_cons_iff]

/-- An occurrence of a pattern that starts with a non-dropped character
survives `dropWhile`. -/
theorem cons_occurs_dropWhile (p : Char → Bool) (c : Char) (r s : Str)
    (hc : p c = false) (h : (c :: r) <:+: s) : (c :: r) <:+: s.dropWhile p := by
  induction s with
  | nil => simp at h
  | cons x t ih =>
    rw [List.dropWhile_cons]
    cases hx : p x
    · simpa [hx] using h
    · simp only [hx, if_true]
      rcases List.infix_cons_iff.mp h with hpre | hinf
      · rcases List.cons_prefix_cons.mp hpre with ⟨rfl, -⟩
        rw [hc] at hx
        exact absurd hx (by simp)
      · exact ih hinf

/-- The stripped string is an infix of the original string. -/
theorem pyStrip_occurs_within (s : Str) : pyStrip s <:+: s := by
  unfold pyStrip
  have h1 : s.dropWhile pyIsSpace <:+ s := List.dropWhile_suffix _
  have h2 : ((s.dropWhile pyIsSpace).reverse.dropWhile pyIsSpace).reverse
      <+: s.dropWhile pyIsSpace := by
    conv_rhs => rw [← List.reverse_reverse (s.dropWhile pyIsSpace)]
    exact List.reverse_prefix.mpr (List.dropWhile_suffix _)
  exact h2.isInfix.trans h1.isInfix

/-- A trim-safe pattern occurs in a string exactly when it occurs in the
stripped string. -/
theorem occurs_pyStrip_iff (pat s : Str) (hp : trimSafe pat = true) :
    pat <:+: pyStrip s ↔ pat <:+: s := by
  constructor
  · intro h
    exact h.trans (pyStrip_occurs_within s)
  · intro h
    rcases pat with - | ⟨c, r⟩
    · simp [trimSafe] at hp
    · rcases hrev : (c :: r).reverse with - | ⟨d, r2⟩
      · exact absurd hrev (by simp)
      · simp only [trimSafe, hrev, Bool.and_eq_true, Bool.not_eq_eq_eq_not,
          Bool.not_true] at hp
        obtain ⟨hc, hd⟩ := hp
        have s1 : (c :: r) <:+: s.dropWhile pyIsSpace :=
          cons_occurs_dropWhile pyIsSpace c r s hc h
        have s2 : (d :: r2) <:+: (s.dropWhile pyIsSpace).reverse := by
          rw [← hrev]
          exact List.reverse_infix.mpr s1
        have s3 : (d :: r2) <:+: (s.dropWhile pyIsSpace).reverse.dropWhile pyIsSpace :=
          cons_occurs_dropWhile pyIsSpace d r2 _ hd s2
        rw [← hrev] at s3
        unfold pyStrip
        have s4 := List.reverse_infix.mpr s3
        rwa [List.reverse_reverse] at s4

/-- Containment of a trim-safe pattern is unchanged by stripping the
searched string. -/
theorem containsSub_pyStrip (pat s : Str) (hp : trimSafe pat = true) :
    containsSub (pyStrip s) pat = containsSub s pat := by
  cases hs : containsSub s pat
  · cases hps : containsSub (pyStrip s) pat
    · rfl
    · rw [← hs]
      exact ((containsSub_iff s pat).mpr
        ((occurs_pyStrip_iff pat s hp).mp ((containsSub_iff _ pat).mp hps))).symm
  · exact (containsSub_iff _ pat).mpr
      ((occurs_pyStrip_iff pat s hp).mpr ((containsSub_iff s pat).mp hs))

/-- Lower-casing commutes with stripping. -/
theorem pyLower_pyStrip (s : Str) : pyLower (pyStrip s) = pyStrip (pyLower s) :=
  (pyStrip_map_comm pyToLower pyToLower_space s).symm

/-- Upper-casing commutes with stripping. -/
theorem pyUpper_pyStrip (s : Str) : pyUpper (pyStrip s) = pyStrip (pyUpper s) :=
  (pyStrip_map_comm pyToUpper pyToUpper_space s).symm

-- ==========================================
-- Streaming-loop lemmas
-- ==========================================

/-- Unfolding: the abort check fires before anything else in an iteration. -/
theorem streamLoop_cons_abort (sig : Nat → Bool) (i : Nat) (c : Chunk)
    (cs : List Chunk) (st : StreamState) (h : sig i = false) :
    streamLoop sig i (c :: cs) st
      = { st with output := st.output ++ [L3_MSG], aborted := true } := by
  simp [streamLoop, h]

/-- Unfolding: a chunk without both fields is skipped when the event is set. -/
theorem streamLoop_cons_none (sig : Nat → Bool) (i : Nat) (cs : List Chunk)
    (st : StreamState) (h : sig i = true) :
    streamLoop sig i (none :: cs) st = streamLoop sig (i + 1) cs st := by
  simp [streamLoop, h]

/-- Unfolding: a well-formed chunk is appended, yielded, and possibly
triggers a background check dispatch, when the event is set. -/
theorem streamLoop_cons_some (sig : Nat → Bool) (i : Nat) (tok : Str)
    (cs : List Chunk) (st : StreamState) (h : sig i = true) :
    streamLoop sig i (some tok :: cs) st =
      if (st.buffer ++ tok).length - st.last_check_len ≥ CHECK_INTERVAL then
        streamLoop sig (i + 1) cs
          ⟨st.buffer ++ tok, (st.buffer ++ tok).length, st.output ++ [tok],
           st.dispatched ++
             [(st.buffer ++ tok).drop ((st.buffer ++ tok).length - 140)],
           st.aborted⟩
      else
        streamLoop sig (i + 1) cs
          ⟨st.buffer ++ tok, st.last_check_len, st.output ++ [tok],
           st.dispatched, st.aborted⟩ := by
  simp [streamLoop, h]

/-- While the event stays set, the loop yields exactly the content of the
well-formed chunks, in order, and never aborts. -/
theorem streamLoop_safe (sig : Nat → Bool) (chunks : List Chunk) :
    ∀ (i : Nat) (st : StreamState),
      (∀ j, j < chunks.length → sig (i + j) = true) →
      (streamLoop sig i chunks st).output = st.output ++ chunks.filterMap id
      ∧ (streamLoop sig i chunks st).aborted = st.aborted := by
  induction chunks with
  | nil => intro i st _; simp [streamLoop]
  | cons c cs ih =>
    intro i st h
    have h0 : sig i = true := by simpa using h 0 (by simp)
    have htail : ∀ j, j < cs.length → sig (i + 1 + j) = true := by
      intro j hj
      have hh := h (j + 1) (by simpa using Nat.succ_lt_succ hj)
      rwa [ show i + (j + 1) = i + 1 + j from by omega] at hh
    cases c with
    | none =>
      rw [streamLoop_cons_none sig i cs st h0]
      simpa [List.filterMap_cons] using ih (i + 1) st htail
    | some tok =>
      rw [streamLoop_cons_some sig i tok cs st h0]
      by_cases hd : (st.buffer ++ tok).length - st.last_check_len ≥ CHECK_INTERVAL
      · rw [if_pos hd]
        have hih := ih (i + 1)
          ⟨st.buffer ++ tok, (st.buffer ++ tok).length, st.output ++ [tok],
           st.dispatched ++
             [(st.buffer ++ tok).drop ((st.buffer ++ tok).length - 140)],
           st.aborted⟩ htail
        constructor
        · rw [hih.1]; simp [List.filterMap_cons]
        · rw [hih.2]
      · rw [if_neg hd]
        have hih := ih (i + 1)
          ⟨st.buffer ++ tok, st.last_check_len, st.output ++ [tok],
           st.dispatched, st.aborted⟩ htail
        constructor
        · rw [hih.1]; simp [List.filterMap_cons]
        · rw [hih.2]

/-- If the event is set for the first `n` iterations and clear at iteration
`n`, with at least `n + 1` chunks still to come, the loop yields exactly
the well-formed content of the first `n` chunks followed by the L3 abort
message, and aborts. -/
theorem streamLoop_abort (sig : Nat → Bool) :
    ∀ (n : Nat) (chunks : List Chunk) (i : Nat) (st : StreamState),
      (∀ j, j < n → sig (i + j) = true) → sig (i + n) = false →
      n < chunks.length →
      (streamLoop sig i chunks st).output
          = st.output ++ (chunks.take n).filterMap id ++ [L3_MSG]
      ∧ (streamLoop sig i chunks st).aborted = true := by
  intro n
  induction n with
  | zero =>
    intro chunks i st hsafe hfalse hlt
    cases chunks with
    | nil => simp at hlt
    | cons c cs =>
      rw [streamLoop_cons_abort sig i c cs st (by simpa using hfalse)]
      simp
  | succ n ih =>
    intro chunks i st hsafe hfalse hlt
    cases chunks with
    | nil => simp at hlt
    | cons c cs =>
      have h0 : sig i = true := by simpa using hsafe 0 (Nat.succ_pos n)
      have hs' : ∀ j, j < n → sig (i + 1 + j) = true := by
        intro j hj
        have hh := hsafe (j + 1) (by omega)
        rwa [ show i + (j + 1) = i + 1 + j from by omega] at hh
      have hf' : sig (i + 1 + n) = false := by
        rwa [ show i + 1 + n = i + (n + 1) from by omega]
      have hlt' : n < cs.length := by simpa using Nat.lt_of_succ_lt_succ hlt
      cases c with
      | none =>
        rw [streamLoop_cons_none sig i cs st h0]
        simpa [List.filterMap_cons] using ih cs (i + 1) st hs' hf' hlt'
      | some tok =>
        rw [streamLoop_cons_some sig i tok cs st h0]
        by_cases hd : (st.buffer ++ tok).length - st.last_check_len ≥ CHECK_INTERVAL
        · rw [if_pos hd]
          have hih := ih cs (i + 1)
            ⟨st.buffer ++ tok, (st.buffer ++ tok).length, st.output ++ [tok],
             st.dispatched ++
               [(st.buffer ++ tok).drop ((st.buffer ++ tok).length - 140)],
             st.aborted⟩ hs' hf' hlt'
          constructor
          · rw [hih.1]; simp [List.filterMap_cons]
          · exact hih.2
        · rw [if_neg hd]
          have hih := ih cs (i + 1)
            ⟨st.buffer ++ tok, st.last_check_len, st.output ++ [tok],
             st.dispatched, st.aborted⟩ hs' hf' hlt'
          constructor
          · rw [hih.1]; simp [List.filterMap_cons]
          · exact hih.2

/-- Every text dispatched during the loop is at most 140 characters long. -/
theorem streamLoop_dispatched_bound (sig : Nat → Bool) (chunks : List Chunk) :
    ∀ (i : Nat) (st : StreamState) (w : Str),
      w ∈ (streamLoop sig i chunks st).dispatched →
      w ∈ st.dispatched ∨ w.length ≤ 140 := by
  induction chunks with
  | nil => intro i st w hw; exact Or.inl hw
  | cons c cs ih =>
    intro i st w hw
    cases h0 : sig i with
    | false =>
      rw [streamLoop_cons_abort sig i c cs st h0] at hw
      exact Or.inl hw
    | true =>
      cases c with
      | none =>
        exact ih (i + 1) st w (by rwa [streamLoop_cons_none sig i cs st h0] at hw)
      | some tok =>
        rw [streamLoop_cons_some sig i tok cs st h0] at hw
        by_cases hd : (st.buffer ++ tok).length - st.last_check_len ≥ CHECK_INTERVAL
        · rw [if_pos hd] at hw
          rcases ih (i + 1)
              ⟨st.buffer ++ tok, (st.buffer ++ tok).length, st.output ++ [tok],
               st.dispatched ++
                 [(st.buffer ++ tok).drop ((st.buffer ++ tok).length - 140)],
               st.aborted⟩ w hw with hmem | hlen
          · rcases (show w ∈ st.dispatched ∨
                w = (st.buffer ++ tok).drop ((st.buffer ++ tok).length - 140)
                from by simpa using hmem) with h1 | h2
            · exact Or.inl h1
            · right
              rw [h2, List.length_drop]
              omega
          · exact Or.inr hlen
        · rw [if_neg hd] at hw
          rcases ih (i + 1)
              ⟨st.buffer ++ tok, st.last_check_len, st.output ++ [tok],
               st.dispatched, st.aborted⟩ w hw with hmem | hlen
          · exact Or.inl (by simpa using hmem)
          · exact Or.inr hlen

/-- Every dispatched task whose done-callback has not run by stream exit is
in the set cancelled by the `finally` clause. -/
theorem pendingAux_mem (done : Nat → Bool) :
    ∀ (ds : List Str) (i j : Nat) (x : Str),
      ds[j]? = some x → done (i + j) = false → x ∈ pendingAux done i ds := by
  intro ds
  induction ds with
  | nil => intro i j x h _; simp at h
  | cons d t ih =>
    intro i j x hg hd
    cases j with
    | zero =>
      simp at hg
      subst hg
      rw [ show i + 0 = i from rfl] at hd
      simp [pendingAux, hd]
    | succ j =>
      have hg' : t[j]? = some x := by simpa using hg
      have hd' : done (i + 1 + j) = false := by
        rwa [ show i + 1 + j = i + (j + 1) from by omega]
      by_cases hdi : done i
      · simpa [pendingAux, hdi] using ih (i + 1) j x hg' hd'
      · simp only [pendingAux, hdi, if_false, Bool.false_eq_true]
        exact List.mem_cons_of_mem d (ih (i + 1) j x hg' hd')

-- ==========================================
-- Judge and pipeline lemmas
-- ==========================================

/-- A cleared event is never set again by a judge invocation. -/
theorem judge_preserves_false (t : Str) (l : Bool) (cl : ClassifierResult) :
    (run_guardrail_judge t l false cl).signal = false := by
  unfold run_guardrail_judge
  split
  · rfl
  · rcases cl with s | - | -
    · dsimp only
      split <;> rfl
    · rfl
    · rfl

/-- A cleared event stays cleared across any further sequence of judge
invocations. -/
theorem runJudges_false (calls : List (Str × Bool × ClassifierResult)) :
    runJudges false calls = false := by
  induction calls with
  | nil => rfl
  | cons c rest ih =>
    rcases c with ⟨t, l, cl⟩
    simp only [runJudges, judge_preserves_false t l cl]
    exact ih

/-- A classifier timeout leaves the event untouched. -/
theorem judge_untouched_on_timeout (t : Str) (l s : Bool) :
    (run_guardrail_judge t l s .timeout).signal = s := by
  unfold run_guardrail_judge
  split <;> rfl

/-- Any other classifier error leaves the event untouched. -/
theorem judge_untouched_on_failure (t : Str) (l s : Bool) :
    (run_guardrail_judge t l s .failure).signal = s := by
  unfold run_guardrail_judge
  split <;> rfl

/-- The source scans `resp.strip().upper()` for the marker; stripping the
response does not change whether the marker occurs. -/
theorem marker_strip_irrelevant (s : Str) :
    containsSub (pyUpper (pyStrip s)) VERDICT_MARKER
      = containsSub (pyUpper s) VERDICT_MARKER := by
  rw [pyUpper_pyStrip, containsSub_pyStrip VERDICT_MARKER (pyUpper s) (by decide)]

/-- One scheduler step preserves the semaphore accounting invariant. -/
theorem procStep_inv (st : ProcState) (e : JudgeEvent)
    (h : st.available + st.inFlight = MAX_CONCURRENT_JUDGES) :
    (procStep st e).1.available + (procStep st e).1.inFlight
      = MAX_CONCURRENT_JUDGES := by
  rcases e with t | -
  · simp only [procStep]
    split
    · exact h
    · rename_i hcond
      have hav : st.available ≠ 0 := by
        intro h0
        exact hcond (by simp [h0])
      dsimp only
      omega
  · simp only [procStep]
    split
    · exact h
    · rename_i hcond
      dsimp only
      omega

/-- The semaphore accounting invariant holds along every event sequence. -/
theorem procRun_inv (evs : List JudgeEvent) :
    ∀ (st : ProcState), st.available + st.inFlight = MAX_CONCURRENT_JUDGES →
      (procRun st evs).available + (procRun st evs).inFlight
        = MAX_CONCURRENT_JUDGES := by
  induction evs with
  | nil => intro st h; exact h
  | cons e rest ih =>
    intro st h
    simp only [procRun, List.foldl_cons]
    exact ih (procStep st e).1 (procStep_inv st e h)

/-- With an always-set event trace and a non-failing backend, the stream
output is exactly the well-formed generated content. -/
theorem stream_generator_safe (sig : Nat → Bool) (chunks : List Chunk)
    (done : Nat → Bool) (hsig : ∀ i, sig i = true) :
    (stream_generator sig chunks false done).output = chunks.filterMap id := by
  have h := streamLoop_safe sig chunks 0 initStreamState (fun j _ => hsig (0 + j))
  simp only [initStreamState] at h
  unfold stream_generator
  simp [initStreamState, h.1]

-- ==========================================
-- Claim theorems
-- ==========================================

/-- C1: For every streaming request, once the safety event has been
cleared by a background check — the observed trace is set for the first
`n` iterations and clear at iteration `n`, while the backend still has
chunks to deliver — no further generation-backend fragment is forwarded:
the output is exactly the fragments delivered before the clearing point
followed by the fixed L3 abort message, and the stream then terminates
(in this synchronous embedding not even one in-flight token leaks past the
clearing point, within the tolerance of at most one that the claim
allows). -/
theorem stream_abort_after_signal_clear (sig : Nat → Bool) (chunks : List Chunk)
    (genFails : Bool) (done : Nat → Bool) (n : Nat)
    (hsafe : ∀ j, j < n → sig j = true) (hclear : sig n = false)
    (hn : n < chunks.length) :
    (stream_generator sig chunks genFails done).output
        = (chunks.take n).filterMap id ++ [L3_MSG]
    ∧ (stream_generator sig chunks genFails done).aborted = true := by
  have h := streamLoop_abort sig n chunks 0 initStreamState
    (fun j hj => by simpa using hsafe j hj) (by simpa using hclear) hn
  simp only [initStreamState] at h
  unfold stream_generator
  constructor
  · simp [initStreamState, h.1, h.2]
  · simp [initStreamState, h.2]

/-- Witness for C1: two tokens available, the event clears after the
first, so the output is the first token then the L3 abort message. -/
theorem stream_abort_after_signal_clear_wit :
    (stream_generator (fun i => decide (i < 1))
        [some (String.toList "Hello"), some (String.toList " world"), none]
        false (fun _ => false)).output
      = [String.toList "Hello", L3_MSG]
    ∧ (stream_generator (fun i => decide (i < 1))
        [some (String.toList "Hello"), some (String.toList " world"), none]
        false (fun _ => false)).aborted = true := by
  have h := stream_abort_after_signal_clear (fun i => decide (i < 1))
    [some (String.toList "Hello"), some (String.toList " world"), none]
    false (fun _ => false) 1 (by decide) (by decide) (by decide)
  simpa using h

/-- C3: The per-request safety event is a monotonic one-way latch: once
cleared it is never set again by any further sequence of judge invocations
(the only operations that mutate it for the lifetime of the request), and
an invocation changes it only by clearing it from set (`true`, the value
it starts with) to cleared, on a positive verdict of an actually invoked
classifier. -/
theorem safety_signal_latch (calls : List (Str × Bool × ClassifierResult))
    (text : Str) (locked sig : Bool) (cl : ClassifierResult)
    (hchange : (run_guardrail_judge text locked sig cl).signal ≠ sig) :
    runJudges false calls = false
    ∧ sig = true
    ∧ (run_guardrail_judge text locked sig cl).signal = false
    ∧ (run_guardrail_judge text locked sig cl).invoked = true
    ∧ ∃ s, cl = .resp s
        ∧ containsSub (pyUpper (pyStrip s)) VERDICT_MARKER = true := by
  refine ⟨runJudges_false calls, ?_⟩
  unfold run_guardrail_judge at hchange ⊢
  split at hchange
  · exact absurd rfl hchange
  · rename_i hcond
    rw [if_neg hcond]
    rcases cl with s | - | -
    · dsimp only at hchange ⊢
      cases hc : containsSub (pyUpper (pyStrip s)) VERDICT_MARKER
      · rw [if_neg (by simp [hc])] at hchange
        exact absurd rfl hchange
      · rw [if_pos (by simp [hc])] at hchange ⊢
        have hsig : sig = true := by
          cases sig
          · exact absurd rfl hchange
          · rfl
        exact ⟨hsig, rfl, rfl, s, rfl, hc⟩
    · exact absurd rfl hchange
    · exact absurd rfl hchange

/-- Witness for C3: a classifier response containing the marker clears the
event that started set. -/
theorem safety_signal_latch_wit :
    runJudges false [] = false
    ∧ true = true
    ∧ (run_guardrail_judge (String.toList "hi") false true
        (.resp (String.toList "UNSAFE"))).signal = false
    ∧ (run_guardrail_judge (String.toList "hi") false true
        (.resp (String.toList "UNSAFE"))).invoked = true
    ∧ ∃ s, ClassifierResult.resp (String.toList "UNSAFE") = .resp s
        ∧ containsSub (pyUpper (pyStrip s)) VERDICT_MARKER = true := by
  have h := safety_signal_latch [] (String.toList "hi") false true
    (.resp (String.toList "UNSAFE")) (by decide)
  exact ⟨h.1, rfl, h.2.2⟩

/-- C4: A judge invocation on empty or whitespace-only text returns at
once, with no classifier invocation and no signal change; otherwise, when
admitted, the classifier is invoked and the event is cleared exactly when
the raw response contains the marker `UNSAFE` case-insensitively anywhere
in it — every other response (empty or garbled included) leaves the event
untouched. -/
theorem judge_verdict_parsing (blank text s : Str) (lk : Bool) (sig : Bool)
    (cl : ClassifierResult) (hempty : pyStrip blank = [])
    (hne : pyStrip text ≠ []) :
    run_guardrail_judge blank lk sig cl = ⟨sig, false⟩
    ∧ run_guardrail_judge text false sig (.resp s)
        = ⟨if containsSub (pyUpper s) VERDICT_MARKER then false else sig,
           true⟩ := by
  constructor
  · unfold run_guardrail_judge
    rw [if_pos (by simp [hempty])]
  · unfold run_guardrail_judge
    rw [if_neg (by simp [hne])]
    dsimp only
    rw [marker_strip_irrelevant s]
    cases hc : containsSub (pyUpper s) VERDICT_MARKER <;> simp [hc]

/-- Witness for C4: whitespace-only text is a no-op; a lower-case
`unsafe` inside a longer response still clears the event. -/
theorem judge_verdict_parsing_wit :
    run_guardrail_judge (String.toList "  ") false true .timeout
        = ⟨true, false⟩
    ∧ run_guardrail_judge (String.toList "hi") false true
        (.resp (String.toList "verdict: unsafe."))
      = ⟨if containsSub (pyUpper (String.toList "verdict: unsafe."))
            VERDICT_MARKER then false else true, true⟩ :=
  judge_verdict_parsing (String.toList "  ") (String.toList "hi")
    (String.toList "verdict: unsafe.") false true .timeout
    (by decide) (by decide)

/-- C6: With the accounting of `judge_semaphore` (initial count
`MAX_CONCURRENT_JUDGES = 1`), at most one classifier call is in flight at
any instant along any event sequence, and an invocation arriving while one
is in flight is dropped with the process state unchanged — nothing is
queued behind the in-flight call and nothing is raised. -/
theorem judge_admission_control (evs : List JudgeEvent) (st : ProcState)
    (t : Str) (hinv : st.available + st.inFlight = MAX_CONCURRENT_JUDGES)
    (hfl : st.inFlight = 1) :
    (procRun initProc evs).inFlight ≤ 1
    ∧ procStep st (.arrive t) = (st, true) := by
  constructor
  · have h := procRun_inv evs initProc rfl
    simp only [MAX_CONCURRENT_JUDGES] at h
    omega
  · have hav : st.available = 0 := by
      simp only [MAX_CONCURRENT_JUDGES] at hinv
      omega
    simp only [procStep]
    rw [if_pos (by simp [hav])]

/-- Witness for C6: an arrival with the single slot held is dropped. -/
theorem judge_admission_control_wit :
    (procRun initProc [.arrive (String.toList "a"), .arrive (String.toList "b"),
        .finish]).inFlight ≤ 1
    ∧ procStep ⟨0, 1⟩ (.arrive (String.toList "x")) = (⟨0, 1⟩, true) :=
  judge_admission_control
    [.arrive (String.toList "a"), .arrive (String.toList "b"), .finish]
    ⟨0, 1⟩ (String.toList "x") (by decide) rfl

/-- C9: During streaming, with the event set, processing a well-formed
chunk dispatches a background check exactly when the characters
accumulated since the last check reach `CHECK_INTERVAL = 40`; the
dispatched text is the trailing window of the accumulated buffer — its
last 140 characters, hence at most 140 characters over a whole run — and
the counter `last_check_len` is reset to the buffer length at each
dispatch. -/
theorem stream_check_dispatch (sig : Nat → Bool) (i : Nat) (tok : Str)
    (cs : List Chunk) (st : StreamState) (chunks : List Chunk) (w : Str)
    (h : sig i = true)
    (hw : w ∈ (streamLoop sig 0 chunks initStreamState).dispatched) :
    (streamLoop sig i (some tok :: cs) st =
      if (st.buffer ++ tok).length - st.last_check_len ≥ CHECK_INTERVAL then
        streamLoop sig (i + 1) cs
          ⟨st.buffer ++ tok, (st.buffer ++ tok).length, st.output ++ [tok],
           st.dispatched ++
             [(st.buffer ++ tok).drop ((st.buffer ++ tok).length - 140)],
           st.aborted⟩
      else
        streamLoop sig (i + 1) cs
          ⟨st.buffer ++ tok, st.last_check_len, st.output ++ [tok],
           st.dispatched, st.aborted⟩)
    ∧ w.length ≤ 140 ∧ CHECK_INTERVAL = 40 := by
  refine ⟨streamLoop_cons_some sig i tok cs st h, ?_, rfl⟩
  rcases streamLoop_dispatched_bound sig chunks 0 initStreamState w hw with h1 | h2
  · simp [initStreamState] at h1
  · exact h2

/-- Witness for C9: a 40-character token triggers a dispatch whose window
is the whole 40-character buffer. -/
theorem stream_check_dispatch_wit :
    (List.replicate 40 'a').length ≤ 140 ∧ CHECK_INTERVAL = 40 :=
  (stream_check_dispatch (fun _ => true) 0 (String.toList "x") []
    initStreamState [some (List.replicate 40 'a')] (List.replicate 40 'a')
    rfl (by decide)).2

/-- C10: A chunk missing the `"message"` field or the `"content"` field is
silently skipped — nothing is forwarded, and buffer, counter and
dispatched checks are unchanged — but the abort check still runs first in
the iteration, so with the event cleared such a chunk still causes the L3
abort. -/
theorem stream_skip_malformed (sig : Nat → Bool) (i : Nat) (cs : List Chunk)
    (st : StreamState) :
    streamLoop sig i (none :: cs) st =
      if sig i then streamLoop sig (i + 1) cs st
      else { st with output := st.output ++ [L3_MSG], aborted := true } := by
  cases h : sig i
  · rw [if_neg (by simp [h])]
    exact streamLoop_cons_abort sig i none cs st h
  · rw [if_pos (by simp [h])]
    exact streamLoop_cons_none sig i cs st h

set_option maxRecDepth 20000 in
/-- C2 counterexample: a prompt longer than `MAX_PROMPT_LENGTH` that
contains the denylist entry `airasia` makes `chat_endpoint` raise HTTP 413
instead of yielding the fixed L1 message, so the claim fails as stated:
the length check precedes the keyword scan. -/
theorem l1_oversized_keyword_cex :
    containsSub (pyLower (String.toList "airasia" ++ List.replicate 994 'x'))
        (String.toList "airasia") = true
    ∧ chat_endpoint (String.toList "airasia" ++ List.replicate 994 'x')
        ⟨false, .timeout, false, fun _ => true, [], false, fun _ => false⟩
      = .error 413 := by
  constructor
  · rfl
  · rfl

/-- C2 amended: for every prompt of length at most `MAX_PROMPT_LENGTH`
that contains a denylist entry as a case-insensitive substring at any
position, `chat_endpoint` yields exactly the single fixed L1 rejection
message and terminates, and neither the classifier backend nor the
generation backend is ever invoked. -/
theorem l1_keyword_rejects (prompt : Str) (env : HandleEnv) (kw : Str)
    (hlen : prompt.length ≤ MAX_PROMPT_LENGTH)
    (hkw : kw ∈ FORBIDDEN_KEYWORDS)
    (hc : containsSub (pyLower prompt) kw = true) :
    chat_endpoint prompt env = .ok ⟨[L1_MSG], false, false⟩ := by
  have hts : trimSafe kw = true := by
    fin_cases hkw <;> decide
  have hhit : keywordHit (pyStrip prompt) = true := by
    unfold keywordHit
    rw [List.any_eq_true]
    refine ⟨kw, hkw, ?_⟩
    rw [pyLower_pyStrip, containsSub_pyStrip kw (pyLower prompt) hts]
    exact hc
  simp only [chat_endpoint]
  rw [if_neg (by omega), if_pos hhit]

/-- Witness for the amended C2: a mixed-case keyword occurrence inside a
longer prompt is rejected with the L1 message and no backend call. -/
theorem l1_keyword_rejects_wit :
    chat_endpoint (String.toList "I love AirAsia!")
        ⟨false, .timeout, false, fun _ => true, [], false, fun _ => false⟩
      = .ok ⟨[L1_MSG], false, false⟩ :=
  l1_keyword_rejects (String.toList "I love AirAsia!")
    ⟨false, .timeout, false, fun _ => true, [], false, fun _ => false⟩
    (String.toList "airasia") (by decide) (by decide) (by decide)

/-- C5: A judge invocation whose classifier call times out or raises
leaves the safety event untouched and propagates nothing, and
`chat_endpoint` proceeds to generation as if the verdict were safe: for a
well-sized prompt with no keyword hit whose prompt-stage classifier call
times out or fails, generation is invoked and — with the event never
clearing and the backend not failing — the output equals the unmodified
generation stream. -/
theorem judge_fail_open (text : Str) (lk sig : Bool) (prompt : Str)
    (env : HandleEnv)
    (hlen : prompt.length ≤ MAX_PROMPT_LENGTH)
    (hkw : keywordHit (pyStrip prompt) = false)
    (hcl : env.promptClassifier = .timeout ∨ env.promptClassifier = .failure)
    (hsig : ∀ i, env.streamSig i = true)
    (hgen : env.genFails = false) :
    (run_guardrail_judge text lk sig .timeout).signal = sig
    ∧ (run_guardrail_judge text lk sig .failure).signal = sig
    ∧ ∃ r, chat_endpoint prompt env = .ok r
        ∧ r.output = env.genChunks.filterMap id
        ∧ r.generationInvoked = true := by
  refine ⟨judge_untouched_on_timeout text lk sig,
    judge_untouched_on_failure text lk sig, ?_⟩
  have hout : (stream_generator env.streamSig env.genChunks env.genFails
      env.taskDone).output = env.genChunks.filterMap id := by
    rw [hgen]
    exact stream_generator_safe env.streamSig env.genChunks env.taskDone hsig
  simp only [chat_endpoint]
  rw [if_neg (by omega), if_neg (by simp [hkw])]
  by_cases hw : env.waitTimesOut
  · rw [if_pos hw]
    exact ⟨_, rfl, hout, rfl⟩
  · rw [if_neg hw]
    have hsafe1 : (run_guardrail_judge (pyStrip prompt) env.promptLocked true
        env.promptClassifier).signal = true := by
      rcases hcl with h | h <;> rw [h]
      · exact judge_untouched_on_timeout _ _ _
      · exact judge_untouched_on_failure _ _ _
    rw [if_neg (by simp [hsafe1])]
    exact ⟨_, rfl, hout, rfl⟩

/-- Witness for C5: the prompt-stage classifier times out and the caller
receives the unmodified generated chunk. -/
theorem judge_fail_open_wit :
    (run_guardrail_judge (String.toList "x") false true .timeout).signal = true
    ∧ (run_guardrail_judge (String.toList "x") false true .failure).signal = true
    ∧ ∃ r, chat_endpoint (String.toList "hello")
        ⟨false, .timeout, false, fun _ => true, [some (String.toList "Hi")],
         false, fun _ => false⟩ = .ok r
        ∧ r.output = [some (String.toList "Hi")].filterMap id
        ∧ r.generationInvoked = true :=
  judge_fail_open (String.toList "x") false true (String.toList "hello")
    ⟨false, .timeout, false, fun _ => true, [some (String.toList "Hi")],
     false, fun _ => false⟩ (by decide) (by decide) (Or.inl rfl)
    (fun _ => rfl) rfl

/-- C7: For a well-sized prompt with no keyword hit: when the 4.0-second
bounded wait does not elapse, `chat_endpoint` yields exactly the single
fixed L2 message without invoking the generation backend exactly when the
prompt-stage judge cleared the event, and otherwise proceeds to
generation; when the bounded wait elapses first, it proceeds to generation
as if safe.  The bounded wait (4.0 s) is distinct from the judge's own
5.0-second classifier timeout. -/
theorem l2_bounded_wait (prompt : Str) (env : HandleEnv)
    (hlen : prompt.length ≤ MAX_PROMPT_LENGTH)
    (hkw : keywordHit (pyStrip prompt) = false) :
    (chat_endpoint prompt { env with waitTimesOut := false }
      = if (run_guardrail_judge (pyStrip prompt) env.promptLocked true
              env.promptClassifier).signal = false
        then .ok ⟨[L2_MSG],
            (run_guardrail_judge (pyStrip prompt) env.promptLocked true
              env.promptClassifier).invoked, false⟩
        else .ok ⟨(stream_generator env.streamSig env.genChunks env.genFails
              env.taskDone).output,
            (run_guardrail_judge (pyStrip prompt) env.promptLocked true
              env.promptClassifier).invoked
              || !(stream_generator env.streamSig env.genChunks env.genFails
                    env.taskDone).dispatched.isEmpty, true⟩)
    ∧ (chat_endpoint prompt { env with waitTimesOut := true }
      = .ok ⟨(stream_generator env.streamSig env.genChunks env.genFails
            env.taskDone).output,
          (run_guardrail_judge (pyStrip prompt) env.promptLocked true
            env.promptClassifier).invoked
            || !(stream_generator env.streamSig env.genChunks env.genFails
                  env.taskDone).dispatched.isEmpty, true⟩)
    ∧ INITIAL_CHECK_WAIT_SEC = 4 ∧ JUDGE_TIMEOUT_SEC = 5
    ∧ INITIAL_CHECK_WAIT_SEC ≠ JUDGE_TIMEOUT_SEC := by
  refine ⟨?_, ?_, rfl, rfl, by decide⟩
  · simp only [chat_endpoint]
    rw [if_neg (by omega), if_neg (by simp [hkw]), if_neg Bool.false_ne_true]
  · simp only [chat_endpoint]
    rw [if_neg (by omega), if_neg (by simp [hkw]), if_pos trivial]

/-- Witness for C7: a classifier response containing the marker within the
bounded wait yields exactly the L2 message with no generation call. -/
theorem l2_bounded_wait_wit :
    chat_endpoint (String.toList "hello")
        ⟨false, .resp (String.toList "UNSAFE"), false, fun _ => true, [],
         false, fun _ => false⟩
      = .ok ⟨[L2_MSG], true, false⟩ := by
  have h := l2_bounded_wait (String.toList "hello")
    ⟨false, .resp (String.toList "UNSAFE"), true, fun _ => true, [],
     false, fun _ => false⟩ (by decide) (by decide)
  exact h.1.trans (by rfl)

/-- C8: When the generation backend raises after delivering its chunks,
the event never clearing meanwhile, the previously forwarded fragments
remain in the output unchanged, followed by exactly one fixed
temporary-failure message, and the stream terminates cleanly; every
dispatched background check whose done-callback has not run is in the set
cancelled by the `finally` clause on that exit path. -/
theorem stream_error_recovery (sig : Nat → Bool) (chunks : List Chunk)
    (done : Nat → Bool) (i : Nat) (x : Str)
    (hsig : ∀ j, j < chunks.length → sig j = true)
    (hget : (stream_generator sig chunks true done).dispatched[i]? = some x)
    (hdone : done i = false) :
    (stream_generator sig chunks true done).output
        = chunks.filterMap id ++ [TEMP_FAIL_MSG]
    ∧ x ∈ (stream_generator sig chunks true done).cancelled := by
  have h := streamLoop_safe sig chunks 0 initStreamState
    (fun j hj => by simpa using hsig j hj)
  simp only [initStreamState] at h
  constructor
  · unfold stream_generator
    simp [initStreamState, h.1, h.2]
  · simp only [stream_generator] at hget ⊢
    exact pendingAux_mem done _ 0 i x (by simpa using hget)
      (by simpa using hdone)

/-- Witness for C8: one 40-character chunk is forwarded, the backend then
fails, the temporary-failure message is appended, and the dispatched
pending check is cancelled. -/
theorem stream_error_recovery_wit :
    (stream_generator (fun _ => true) [some (List.replicate 40 'a')] true
        (fun _ => false)).output
      = ([some (List.replicate 40 'a')] : List Chunk).filterMap id
          ++ [TEMP_FAIL_MSG]
    ∧ List.replicate 40 'a'
        ∈ (stream_generator (fun _ => true) [some (List.replicate 40 'a')]
            true (fun _ => false)).cancelled :=
  stream_error_recovery (fun _ => true) [some (List.replicate 40 'a')]
    (fun _ => false) 0 (List.replicate 40 'a') (by decide) (by decide) rfl

end SkyHigh
